import Mathlib

/-!
Verification of the download-engine core of an m3u8 segment downloader.

Each TypeScript function under scrutiny is shallowly embedded as a Lean
definition: number arithmetic becomes exact rational arithmetic (`ℚ`),
fallible calls become `Except`/`Option`, and the effect outcomes a function
observes (HTTP responses, file-system answers, the ffmpeg run) are passed in
explicitly as oracle parameters.  Theorems are stated against these
definitions.
-/

/-! ### Completion check — `DownloadEngine.checkDownloadCompletion`

Source: the engine holds `completionThreshold = 0.98` and decides

```ts
const shouldComplete =
  downloadedSegments >= totalSegments ||
  (progress >= this.completionThreshold && downloadedSegments > 0) ||
  (downloadedSegments + failedSegments >= totalSegments &&
   failedSegments <= Math.max(2, totalSegments * 0.02));
```

with `progress = downloadedSegments / totalSegments`. -/

def completionThreshold : ℚ := 98 / 100

/-- Completion decision of `DownloadEngine.checkDownloadCompletion`, with the
engine's number arithmetic embedded as exact rational arithmetic.  Note the
third rule compares `failedSegments` against `Math.max(2, totalSegments * 0.02)`
directly: the source applies no ceiling to `totalSegments * 0.02`. -/
def shouldComplete (downloadedSegments totalSegments failedSegments : ℕ) : Prop :=
  downloadedSegments ≥ totalSegments ∨
    ((downloadedSegments : ℚ) / (totalSegments : ℚ) ≥ completionThreshold ∧
      downloadedSegments > 0) ∨
    (downloadedSegments + failedSegments ≥ totalSegments ∧
      (failedSegments : ℚ) ≤ max 2 ((totalSegments : ℚ) * (2 / 100)))

instance shouldComplete.instDecidable (d t f : ℕ) : Decidable (shouldComplete d t f) := by
  unfold shouldComplete completionThreshold
  infer_instance

/-- The completion rule exactly as the specification claims it, i.e. with a
ceiling applied to `total_segments * 0.02` in rule 3. -/
def claimShouldComplete (downloadedSegments totalSegments failedSegments : ℕ) : Prop :=
  downloadedSegments ≥ totalSegments ∨
    ((downloadedSegments : ℚ) / (totalSegments : ℚ) ≥ 98 / 100 ∧
      downloadedSegments > 0) ∨
    (downloadedSegments + failedSegments ≥ totalSegments ∧
      (failedSegments : ℤ) ≤ max 2 ⌈(totalSegments : ℚ) * (2 / 100)⌉)

/-- Claim C1 fails on the code: with 151 total segments, 147 downloaded and 4
failed, the claimed rule (ceiling of `151 · 0.02` is `4`, and `4 ≤ max(2,4)`)
marks the job complete, but the code's check (`4 ≤ max(2, 3.02)` is false) does
not. -/
theorem checkDownloadCompletion_claim_counterexample :
    claimShouldComplete 147 151 4 ∧ ¬ shouldComplete 147 151 4 := by
  constructor
  · unfold claimShouldComplete
    push_cast
    right; right
    refine ⟨by norm_num, ?_⟩
    have h4 : (⌈(151 : ℚ) * (2 / 100)⌉ : ℤ) = 4 := by
      rw [Int.ceil_eq_iff]
      norm_num
    rw [h4]
    norm_num
  · intro h
    unfold shouldComplete completionThreshold at h
    push_cast at h
    rcases h with h | ⟨h, _⟩ | ⟨_, h⟩
    · norm_num at h
    · norm_num at h
    · have hm : max (2 : ℚ) ((151 : ℚ) * (2 / 100)) = (151 : ℚ) * (2 / 100) :=
        max_eq_right (by norm_num)
      rw [hm] at h
      norm_num at h

/-- Claim C1 (amended): the completion check marks a job completed exactly when
`downloaded ≥ total`, or `downloaded/total ≥ 0.98` with `downloaded > 0`, or
`downloaded + |failed| ≥ total` with `|failed| ≤ max(2, total · 0.02)` — the
last comparison taken exactly, with no ceiling.  Stated here as the equivalent
integer-arithmetic characterization of the code's rational-arithmetic check. -/
theorem checkDownloadCompletion_rule (d t f : ℕ) (ht : 0 < t) :
    shouldComplete d t f ↔
      (d ≥ t ∨ (100 * d ≥ 98 * t ∧ 0 < d) ∨
        (d + f ≥ t ∧ 100 * f ≤ max 200 (2 * t))) := by
  have htq : (0 : ℚ) < (t : ℚ) := by exact_mod_cast ht
  unfold shouldComplete completionThreshold
  constructor
  · rintro (h | ⟨h, hd⟩ | ⟨h, hf⟩)
    · exact Or.inl h
    · refine Or.inr (Or.inl ⟨?_, hd⟩)
      rw [ge_iff_le, div_le_div_iff₀ (by norm_num) htq] at h
      have : (98 : ℚ) * t ≤ 100 * d := by linarith
      exact_mod_cast this
    · refine Or.inr (Or.inr ⟨h, ?_⟩)
      rcases le_max_iff.mp hf with h2 | h2
      · have h2q : (100 : ℚ) * f ≤ 200 := by linarith
        exact le_max_of_le_left (by exact_mod_cast h2q)
      · have h2q : (100 : ℚ) * f ≤ 2 * t := by linarith
        exact le_max_of_le_right (by exact_mod_cast h2q)
  · rintro (h | ⟨h, hd⟩ | ⟨h, hf⟩)
    · exact Or.inl h
    · refine Or.inr (Or.inl ⟨?_, hd⟩)
      rw [ge_iff_le, div_le_div_iff₀ (by norm_num) htq]
      have : (98 : ℚ) * t ≤ 100 * d := by exact_mod_cast h
      linarith
    · refine Or.inr (Or.inr ⟨h, ?_⟩)
      rcases le_max_iff.mp hf with h2 | h2
      · have h2q : (100 : ℚ) * f ≤ 200 := by exact_mod_cast h2
        exact le_max_of_le_left (by linarith)
      · have h2q : (100 : ℚ) * f ≤ 2 * t := by exact_mod_cast h2
        exact le_max_of_le_right (by linarith)

/-- Witness for `checkDownloadCompletion_rule` at a concrete job state. -/
theorem checkDownloadCompletion_rule_witness :
    0 < 100 ∧
      (shouldComplete 99 100 1 ↔
        (99 ≥ 100 ∨ (100 * 99 ≥ 98 * 100 ∧ 0 < 99) ∨
          (99 + 1 ≥ 100 ∧ 100 * 1 ≤ max 200 (2 * 100)))) :=
  ⟨by decide, checkDownloadCompletion_rule 99 100 1 (by decide)⟩

/-! ### Progress accounting — `DownloadEngine.updateDownloadProgress`

Source (part_002, lines 257–297): on each successful segment the engine
re-reads the job record, computes

```ts
const newDownloadedSegments = (download.downloadedSegments || 0) + 1;
const progress = (newDownloadedSegments / totalSegs) * 100;
const speed = elapsedSeconds > 0 ? stats.downloadedBytes / elapsedSeconds : 0;
const remainingSegments = totalSegs - newDownloadedSegments - failedSegments;
const avgSegmentTime = elapsedSeconds / (newDownloadedSegments - (download.downloadedSegments || 0) + 1);
const eta = remainingSegments > 0 && avgSegmentTime > 0 ? Math.round(remainingSegments * avgSegmentTime) : 0;
```

and stores `progress` rounded to two decimals.  Since `download.downloadedSegments`
is the value re-read in this very call, the denominator of `avgSegmentTime` is
always `(d + 1) - d + 1 = 2`. -/

/-- JavaScript `Math.round`: round half toward positive infinity. -/
def jsRound (q : ℚ) : ℤ := ⌊q + 1 / 2⌋

/-- `Math.round(x * 100) / 100`, the two-decimal rounding used for stored progress. -/
def round2 (q : ℚ) : ℚ := (jsRound (q * 100) : ℚ) / 100

structure ProgressUpdate where
  downloadedSegments : ℕ
  progress : ℚ
  speed : ℚ
  eta : ℤ
  downloadedBytes : ℚ

/-- `DownloadEngine.updateDownloadProgress` as a pure function.
`storedDownloaded` is `download.downloadedSegments` as re-read from the store at
the start of this call, `prevBytes` the stats accumulator before this segment,
`segmentSize` the byte count of the segment just fetched. -/
def updateDownloadProgress (storedDownloaded totalSegs failedCount : ℕ)
    (prevBytes segmentSize elapsedSeconds : ℚ) : ProgressUpdate :=
  let newDownloaded := storedDownloaded + 1
  let bytes := prevBytes + segmentSize
  let progress := ((newDownloaded : ℚ) / (totalSegs : ℚ)) * 100
  let speed := if elapsedSeconds > 0 then bytes / elapsedSeconds else 0
  let remaining : ℤ := (totalSegs : ℤ) - (newDownloaded : ℤ) - (failedCount : ℤ)
  let avgSegmentTime : ℚ :=
    elapsedSeconds / (((newDownloaded : ℕ) : ℚ) - ((storedDownloaded : ℕ) : ℚ) + 1)
  let eta : ℤ :=
    if remaining > 0 ∧ avgSegmentTime > 0 then jsRound ((remaining : ℚ) * avgSegmentTime)
    else 0
  { downloadedSegments := newDownloaded
    progress := round2 progress
    speed := speed
    eta := eta
    downloadedBytes := bytes }

/-- The eta formula as the specification claims it: `avg_segment_time =
elapsed_seconds / segments_downloaded_this_run`, where the this-run count is
the new downloaded count minus the count the run started with. -/
def claimEta (runStartDownloaded newDownloaded totalSegs failedCount : ℕ)
    (elapsedSeconds : ℚ) : ℤ :=
  let remaining : ℤ := (totalSegs : ℤ) - (newDownloaded : ℤ) - (failedCount : ℤ)
  if remaining ≤ 0 then 0
  else jsRound ((remaining : ℚ) *
    (elapsedSeconds / (((newDownloaded : ℕ) : ℚ) - ((runStartDownloaded : ℕ) : ℚ))))

/-- Claim C6 fails on the code: on the first successful segment of a run that
began with 0 downloaded segments (10 total, none failed, 2 s elapsed), the
claimed formula gives `round(9 · (2/1)) = 18` seconds, but the code divides the
elapsed time by `newDownloaded − current + 1 = 2` and emits
`round(9 · (2/2)) = 9`. -/
theorem updateDownloadProgress_claim_counterexample :
    (updateDownloadProgress 0 10 0 0 1024 2).eta = 9 ∧
      claimEta 0 1 10 0 2 = 18 ∧ (9 : ℤ) ≠ 18 := by
  refine ⟨?_, ?_, by decide⟩
  · simp only [updateDownloadProgress, jsRound]
    norm_num
  · simp only [claimEta, jsRound]
    norm_num

/-- Claim C6 (amended): on each successful segment the update stores
`downloaded_segments + 1`, accumulates the byte count, computes
`progress = round2(newDownloaded / total · 100)`,
`speed = downloaded_bytes / elapsed_seconds` (0 when `elapsed_seconds ≤ 0`), and
`eta = round((total − newDownloaded − |failed|) · elapsed_seconds / 2)` — the
average-segment-time denominator is always 2, because the code subtracts the
just-re-read counter from its own increment — emitting 0 when the remaining
count or the elapsed time is ≤ 0. -/
theorem updateDownloadProgress_fields (d t f : ℕ) (b s e : ℚ) :
    (updateDownloadProgress d t f b s e).downloadedSegments = d + 1 ∧
      (updateDownloadProgress d t f b s e).downloadedBytes = b + s ∧
      (updateDownloadProgress d t f b s e).progress =
        round2 ((((d + 1 : ℕ) : ℚ) / (t : ℚ)) * 100) ∧
      (updateDownloadProgress d t f b s e).speed =
        (if e > 0 then (b + s) / e else 0) ∧
      (updateDownloadProgress d t f b s e).eta =
        (if (t : ℤ) - (d + 1 : ℕ) - f > 0 ∧ e > 0 then
          jsRound ((((t : ℤ) - (d + 1 : ℕ) - f : ℤ) : ℚ) * (e / 2))
        else 0) := by
  have hden : (((d + 1 : ℕ) : ℚ) - ((d : ℕ) : ℚ) + 1) = 2 := by push_cast; ring
  have hpos : (e / 2 > 0) ↔ e > 0 := by constructor <;> intro h <;> linarith
  refine ⟨rfl, rfl, rfl, rfl, ?_⟩
  simp only [updateDownloadProgress, hden]
  by_cases hr : (t : ℤ) - (d + 1 : ℕ) - f > 0
  · by_cases he : e > 0
    · rw [if_pos ⟨hr, hpos.mpr he⟩, if_pos ⟨hr, he⟩]
    · rw [if_neg (by tauto), if_neg (by tauto)]
  · rw [if_neg (by tauto), if_neg (by tauto)]

/-! ### Segment fetcher — `DownloadEngine.downloadSegment`

Source (part_002, lines 211–255): a loop `for (attempt = 1; attempt <= 3; attempt++)`
around a try block that performs `axios.get` (which rejects on transport failure
and on any non-2xx status), throws on an empty body, and then awaits
`fs.writeFile` — so a failing disk write also fails the attempt and is retried.
On failure with `attempt < maxRetries` the loop sleeps
`min(1000 * attempt, 5000)` ms; after the loop it throws
`Failed to download segment <i> after 3 attempts: <lastError>`.
The loop bound is the literal 3, so it is unrolled here; the `sleepsMs` field
records the backoff sleeps performed, in order. -/

/-- Everything one attempt observes from the outside world. -/
structure HttpOutcome where
  transportError : Option String
  status : ℕ
  bodyBytes : ℕ
  writeError : Option String

/-- One iteration of the fetch try block: `axios.get` (rejects on transport
failure, and on non-2xx status per its default `validateStatus`), the explicit
empty-body throw, then `fs.writeFile`; returns the byte count on success. -/
def attemptResult (i : ℕ) (o : HttpOutcome) : Except String ℕ :=
  match o.transportError with
  | some e => Except.error e
  | none =>
    if o.status < 200 ∨ 300 ≤ o.status then
      Except.error ("Request failed with status code " ++ toString o.status)
    else if o.bodyBytes = 0 then
      Except.error ("Empty response for segment " ++ toString i)
    else
      match o.writeError with
      | some e => Except.error e
      | none => Except.ok o.bodyBytes

def maxRetries : ℕ := 3

/-- The message thrown after the loop exhausts all retries. -/
def exhaustedMsg (i : ℕ) (lastErr : String) : String :=
  "Failed to download segment " ++ toString i ++ " after " ++ toString maxRetries ++
    " attempts: " ++ lastErr

structure SegmentFetchResult where
  attemptsMade : ℕ
  sleepsMs : List ℕ
  result : Except String ℕ

/-- `DownloadEngine.downloadSegment`: the retry loop, unrolled at its literal
bound of three attempts.  `oracle k` is what attempt `k` observes. -/
def downloadSegment (oracle : ℕ → HttpOutcome) (i : ℕ) : SegmentFetchResult :=
  match attemptResult i (oracle 1) with
  | Except.ok n => ⟨1, [], Except.ok n⟩
  | Except.error _ =>
    match attemptResult i (oracle 2) with
    | Except.ok n => ⟨2, [min (1000 * 1) 5000], Except.ok n⟩
    | Except.error _ =>
      match attemptResult i (oracle 3) with
      | Except.ok n => ⟨3, [min (1000 * 1) 5000, min (1000 * 2) 5000], Except.ok n⟩
      | Except.error e =>
        ⟨3, [min (1000 * 1) 5000, min (1000 * 2) 5000], Except.error (exhaustedMsg i e)⟩

/-- Attempt-failure condition exactly as the claim states it: transport failure,
non-2xx status, or a zero-byte body — nothing else. -/
def claimAttemptFails (o : HttpOutcome) : Prop :=
  o.transportError ≠ none ∨ o.status < 200 ∨ 300 ≤ o.status ∨ o.bodyBytes = 0

/-- Claim C2 fails on the code: a 200 response with a nonempty body whose disk
write throws is not a failed attempt under the claim's "exactly when" list, yet
the code retries it and, after three such attempts, reports the segment failed
with the write error as the last error. -/
theorem downloadSegment_claim_counterexample :
    ¬ claimAttemptFails ⟨none, 200, 1024, some "EACCES: permission denied"⟩ ∧
      (downloadSegment (fun _ => ⟨none, 200, 1024, some "EACCES: permission denied"⟩) 7).result =
        Except.error (exhaustedMsg 7 "EACCES: permission denied") := by
  constructor
  · intro h
    rcases h with h | h | h | h <;> simp at h
  · rfl

/-- Claim C2 (amended): the fetcher makes between one and three attempts; after
each failed non-final attempt `k` it sleeps `min(1000·k, 5000)` ms (recorded in
order in `sleepsMs`); every attempt before the last one made failed; a success
of the last attempt made is returned as the fetched byte count; if the last
attempt made fails it is attempt 3 and the segment is reported failed with a
message carrying the last error; the result never depends on the oracle beyond
attempt 3 (no fourth attempt); and an attempt fails exactly when the transport
fails, the status is not 2xx, the body is zero bytes, **or the disk write
fails** (this last cause is missing from the original claim). -/
theorem downloadSegment_spec (oracle : ℕ → HttpOutcome) (i : ℕ) :
    (1 ≤ (downloadSegment oracle i).attemptsMade ∧
      (downloadSegment oracle i).attemptsMade ≤ 3) ∧
    (downloadSegment oracle i).sleepsMs =
      (List.range' 1 ((downloadSegment oracle i).attemptsMade - 1)).map
        (fun k => min (1000 * k) 5000) ∧
    (∀ k, 1 ≤ k → k < (downloadSegment oracle i).attemptsMade →
      ∃ e, attemptResult i (oracle k) = Except.error e) ∧
    (∀ n, attemptResult i (oracle (downloadSegment oracle i).attemptsMade) = Except.ok n →
      (downloadSegment oracle i).result = Except.ok n) ∧
    (∀ e, attemptResult i (oracle (downloadSegment oracle i).attemptsMade) = Except.error e →
      (downloadSegment oracle i).attemptsMade = 3 ∧
        (downloadSegment oracle i).result = Except.error (exhaustedMsg i e)) ∧
    (∀ g : ℕ → HttpOutcome,
      downloadSegment (fun k => if k ≤ 3 then oracle k else g k) i =
        downloadSegment oracle i) ∧
    (∀ o : HttpOutcome,
      (∃ e, attemptResult i o = Except.error e) ↔
        (o.transportError ≠ none ∨ o.status < 200 ∨ 300 ≤ o.status ∨
          o.bodyBytes = 0 ∨ o.writeError ≠ none)) := by
  have hover : ∀ g : ℕ → HttpOutcome,
      downloadSegment (fun k => if k ≤ 3 then oracle k else g k) i =
        downloadSegment oracle i := by
    intro g
    have o1 : (if (1 : ℕ) ≤ 3 then oracle 1 else g 1) = oracle 1 := by norm_num
    have o2 : (if (2 : ℕ) ≤ 3 then oracle 2 else g 2) = oracle 2 := by norm_num
    have o3 : (if (3 : ℕ) ≤ 3 then oracle 3 else g 3) = oracle 3 := by norm_num
    simp only [downloadSegment, o1, o2, o3]
  have hfail : ∀ o : HttpOutcome,
      (∃ e, attemptResult i o = Except.error e) ↔
        (o.transportError ≠ none ∨ o.status < 200 ∨ 300 ≤ o.status ∨
          o.bodyBytes = 0 ∨ o.writeError ≠ none) := by
    rintro ⟨te, st, bb, we⟩
    cases te with
    | some e =>
      constructor
      · intro _
        left
        simp
      · intro _
        exact ⟨e, rfl⟩
    | none =>
      by_cases hst : st < 200 ∨ 300 ≤ st
      · constructor
        · intro _
          right
          tauto
        · intro _
          exact ⟨"Request failed with status code " ++ toString st,
            by simp [attemptResult, hst]⟩
      · by_cases hbb : bb = 0
        · constructor
          · intro _
            right; right; right; left
            exact hbb
          · intro _
            exact ⟨"Empty response for segment " ++ toString i,
              by simp [attemptResult, hst, hbb]⟩
        · cases we with
          | some w =>
            constructor
            · intro _
              right; right; right; right
              simp
            · intro _
              exact ⟨w, by simp [attemptResult, hst, hbb]⟩
          | none =>
            constructor
            · rintro ⟨e, he⟩
              simp [attemptResult, hst, hbb] at he
            · intro h
              rcases h with h | h | h | h | h
              · exact absurd rfl h
              · exact absurd (Or.inl h) hst
              · exact absurd (Or.inr h) hst
              · exact absurd h hbb
              · exact absurd rfl h
  rcases h1 : attemptResult i (oracle 1) with e1 | n1
  · rcases h2 : attemptResult i (oracle 2) with e2 | n2
    · rcases h3 : attemptResult i (oracle 3) with e3 | n3
      · have hkey : downloadSegment oracle i =
            ⟨3, [min (1000 * 1) 5000, min (1000 * 2) 5000],
              Except.error (exhaustedMsg i e3)⟩ := by
          simp only [downloadSegment, h1, h2, h3]
        refine ⟨?_, ?_, ?_, ?_, ?_, hover, hfail⟩
        · rw [hkey]
          exact ⟨by norm_num, by norm_num⟩
        · rw [hkey]
          rfl
        · intro k hk1 hk2
          rw [hkey] at hk2
          interval_cases k
          · exact ⟨e1, h1⟩
          · exact ⟨e2, h2⟩
        · intro n hn
          rw [hkey] at hn
          rw [h3] at hn
          cases hn
        · intro e he
          rw [hkey] at he
          rw [h3] at he
          cases he
          rw [hkey]
          exact ⟨rfl, rfl⟩
      · have hkey : downloadSegment oracle i =
            ⟨3, [min (1000 * 1) 5000, min (1000 * 2) 5000], Except.ok n3⟩ := by
          simp only [downloadSegment, h1, h2, h3]
        refine ⟨?_, ?_, ?_, ?_, ?_, hover, hfail⟩
        · rw [hkey]
          exact ⟨by norm_num, by norm_num⟩
        · rw [hkey]
          rfl
        · intro k hk1 hk2
          rw [hkey] at hk2
          interval_cases k
          · exact ⟨e1, h1⟩
          · exact ⟨e2, h2⟩
        · intro n hn
          rw [hkey] at hn ⊢
          rw [h3] at hn
          cases hn
          rfl
        · intro e he
          rw [hkey] at he
          rw [h3] at he
          cases he
    · have hkey : downloadSegment oracle i =
          ⟨2, [min (1000 * 1) 5000], Except.ok n2⟩ := by
        simp only [downloadSegment, h1, h2]
      refine ⟨?_, ?_, ?_, ?_, ?_, hover, hfail⟩
      · rw [hkey]
        exact ⟨by norm_num, by norm_num⟩
      · rw [hkey]
        rfl
      · intro k hk1 hk2
        rw [hkey] at hk2
        interval_cases k
        exact ⟨e1, h1⟩
      · intro n hn
        rw [hkey] at hn ⊢
        rw [h2] at hn
        cases hn
        rfl
      · intro e he
        rw [hkey] at he
        rw [h2] at he
        cases he
  · have hkey : downloadSegment oracle i = ⟨1, [], Except.ok n1⟩ := by
      simp only [downloadSegment, h1]
    refine ⟨?_, ?_, ?_, ?_, ?_, hover, hfail⟩
    · rw [hkey]
      exact ⟨by norm_num, by norm_num⟩
    · rw [hkey]
      rfl
    · intro k hk1 hk2
      rw [hkey] at hk2
      simp at hk2
      omega
    · intro n hn
      rw [hkey] at hn ⊢
      rw [h1] at hn
      cases hn
      rfl
    · intro e he
      rw [hkey] at he
      rw [h1] at he
      cases he

/-- A concrete oracle for the witness: attempt 1 times out, attempt 2 succeeds
with a 7-byte body. -/
def witnessOracle : ℕ → HttpOutcome :=
  fun k => if k = 1 then ⟨some "timeout of 15000ms exceeded", 0, 0, none⟩
           else ⟨none, 200, 7, none⟩

/-- Witness for `downloadSegment_spec` at a concrete oracle. -/
theorem downloadSegment_spec_witness :
    (downloadSegment witnessOracle 5).result = Except.ok 7 ∧
      (∃ e, attemptResult 5 (witnessOracle 1) = Except.error e) := by
  have h := downloadSegment_spec witnessOracle 5
  refine ⟨h.2.2.2.1 7 (by rfl), h.2.2.1 1 (by decide) (by decide)⟩

/-! ### Disk reconciliation — `DownloadEngine.checkExistingSegments` and the
start-protocol update of `downloadedSegments`

Source (part_002, lines 487–522): for each index `i` of the segment list, probe
`path.join(outputPath, `${filename}_segment_${i}.ts`)` with `fs.stat`; the index
is *existing* when stat succeeds and `stats.size > 0`, otherwise *missing*
(a stat failure or an empty file).  `startDownload` (lines 49–99) then updates
the stored `downloadedSegments` to `existingSegments.length` — but only inside
`if (existingSegments.length > 0)` — and passes exactly `missingSegments` to
`processDownload`. -/

/-- File-system oracle: `size path = some n` when `fs.stat path` succeeds and
reports size `n`; `none` when it throws (no such file). -/
structure DiskState where
  size : String → Option ℕ

/-- The deterministic on-disk segment path. -/
def segmentPath (outputPath filename : String) (i : ℕ) : String :=
  outputPath ++ "/" ++ filename ++ "_segment_" ++ toString i ++ ".ts"

/-- Whether index `i`'s segment file exists with nonzero size. -/
def segmentOnDisk (disk : DiskState) (outputPath filename : String) (i : ℕ) : Bool :=
  match disk.size (segmentPath outputPath filename i) with
  | some sz => decide (0 < sz)
  | none => false

structure SegmentCheck where
  existingSegments : List (ℕ × String)
  missingSegments : List (ℕ × String)
  existingSegmentPaths : List String

/-- One loop iteration of `checkExistingSegments`. -/
def checkExistingStep (disk : DiskState) (outputPath filename : String)
    (acc : SegmentCheck) (p : ℕ × String) : SegmentCheck :=
  if segmentOnDisk disk outputPath filename p.1 then
    { acc with
      existingSegments := acc.existingSegments ++ [p]
      existingSegmentPaths :=
        acc.existingSegmentPaths ++ [segmentPath outputPath filename p.1] }
  else
    { acc with missingSegments := acc.missingSegments ++ [p] }

/-- `DownloadEngine.checkExistingSegments`: classify every enumerated segment
URL as existing or missing. -/
def checkExistingSegments (disk : DiskState) (outputPath filename : String)
    (allSegments : List String) : SegmentCheck :=
  allSegments.enum.foldl (checkExistingStep disk outputPath filename) ⟨[], [], []⟩

/-- The `downloadedSegments` value stored by `startDownload` after the disk
check: the source guards the update with `if (existingSegments.length > 0)`,
so a zero count leaves the previously stored value in place. -/
def downloadedSegmentsAfterStart (prevStored existingCount : ℕ) : ℕ :=
  if 0 < existingCount then existingCount else prevStored

theorem foldl_checkExistingStep (disk : DiskState) (o f : String) :
    ∀ (l : List (ℕ × String)) (acc : SegmentCheck),
      l.foldl (checkExistingStep disk o f) acc =
        ⟨acc.existingSegments ++ l.filter (fun p => segmentOnDisk disk o f p.1),
          acc.missingSegments ++ l.filter (fun p => ! segmentOnDisk disk o f p.1),
          acc.existingSegmentPaths ++
            (l.filter (fun p => segmentOnDisk disk o f p.1)).map
              (fun p => segmentPath o f p.1)⟩
  | [], acc => by simp
  | p :: l, acc => by
    rw [List.foldl_cons, foldl_checkExistingStep]
    by_cases h : segmentOnDisk disk o f p.1 <;>
      simp [checkExistingStep, h, SegmentCheck.mk.injEq, List.filter_cons]

/-- Claim C3 fails on the code in its `downloaded_segments` part: with an empty
disk (no segment file exists) and a job record that still stores
`downloadedSegments = 5`, the start protocol leaves 5 in place — the
`existingSegments.length > 0` guard skips the update — while the claim requires
the count of existing indices, 0. -/
theorem checkExistingSegments_claim_counterexample :
    (checkExistingSegments ⟨fun _ => none⟩ "out" "movie" ["u0", "u1"]).existingSegments.length = 0 ∧
      downloadedSegmentsAfterStart 5
        (checkExistingSegments ⟨fun _ => none⟩ "out" "movie" ["u0", "u1"]).existingSegments.length = 5 ∧
      (5 : ℕ) ≠ 0 := by
  refine ⟨rfl, rfl, by decide⟩

/-- Claim C3 (amended): on start, index `i` is classified existing exactly when
its deterministic file `<output_dir>/<filename>_segment_<i>.ts` exists with
size > 0 (empty files count as missing); fetches are scheduled exactly for the
missing indices, so an existing nonzero segment is never re-downloaded; and
`downloaded_segments` is set to the count of existing indices **when that count
is positive** — when no segment file is found the previously stored value is
left unchanged. -/
theorem startDownload_reconcile (disk : DiskState) (o f : String) (segs : List String) :
    (∀ i, segmentOnDisk disk o f i = true ↔
      ∃ sz, disk.size (segmentPath o f i) = some sz ∧ 0 < sz) ∧
    (checkExistingSegments disk o f segs).existingSegments =
      segs.enum.filter (fun p => segmentOnDisk disk o f p.1) ∧
    (checkExistingSegments disk o f segs).missingSegments =
      segs.enum.filter (fun p => ! segmentOnDisk disk o f p.1) ∧
    (checkExistingSegments disk o f segs).existingSegmentPaths =
      ((checkExistingSegments disk o f segs).existingSegments).map
        (fun p => segmentPath o f p.1) ∧
    (∀ p, p ∈ (checkExistingSegments disk o f segs).missingSegments →
      segmentOnDisk disk o f p.1 = false) ∧
    (∀ prev cnt, 0 < cnt → downloadedSegmentsAfterStart prev cnt = cnt) ∧
    (∀ prev, downloadedSegmentsAfterStart prev 0 = prev) := by
  have hfold := foldl_checkExistingStep disk o f segs.enum ⟨[], [], []⟩
  refine ⟨?_, ?_, ?_, ?_, ?_, ?_, ?_⟩
  · intro i
    unfold segmentOnDisk
    cases h : disk.size (segmentPath o f i) with
    | none => simp
    | some sz => simp
  · rw [checkExistingSegments, hfold]
    simp
  · rw [checkExistingSegments, hfold]
    simp
  · rw [checkExistingSegments, hfold]
    simp
  · intro p hp
    rw [checkExistingSegments, hfold] at hp
    simp only [List.nil_append, List.mem_filter] at hp
    simpa using hp.2
  · intro prev cnt hc
    simp [downloadedSegmentsAfterStart, hc]
  · intro prev
    simp [downloadedSegmentsAfterStart]

/-- Witness for `startDownload_reconcile` at a concrete disk with one nonzero
segment file, one empty file, and one absent file. -/
theorem startDownload_reconcile_witness :
    (segmentOnDisk
        ⟨fun p => if p = segmentPath "out" "m" 0 then some 4096
                  else if p = segmentPath "out" "m" 1 then some 0 else none⟩
        "out" "m" 0 = true ↔
      ∃ sz, (if segmentPath "out" "m" 0 = segmentPath "out" "m" 0 then some 4096
             else if segmentPath "out" "m" 0 = segmentPath "out" "m" 1 then some 0
             else none) = some sz ∧ 0 < sz) ∧
      downloadedSegmentsAfterStart 7 3 = 3 := by
  have h := startDownload_reconcile
    ⟨fun p => if p = segmentPath "out" "m" 0 then some 4096
              else if p = segmentPath "out" "m" 1 then some 0 else none⟩
    "out" "m" ["u0", "u1", "u2"]
  exact ⟨h.1 0, h.2.2.2.2.2.1 7 3 (by decide)⟩

/-! ### Start guard — `DownloadEngine.startDownload` entry check

Source (part_002, lines 38–46):

```ts
const download = await storage.getDownload(downloadId);
if (!download || !download.segments) {
  throw new Error('Download not found or no segments available');
}
await storage.updateDownload(downloadId, { status: 'downloading' });
```

In JavaScript `![]` is `false`: a present-but-empty `segments` array passes the
guard.  The start route (`POST /api/downloads/:id/start`) adds no further
check. -/

/-- The stored job fields the guard consults; `segments` is `none` when the
record's `segments` column is NULL/absent. -/
structure StoredJob where
  segments : Option (List String)

/-- The `startDownload` entry guard. -/
def startDownloadCheck (download : Option StoredJob) : Except String Unit :=
  match download with
  | none => Except.error "Download not found or no segments available"
  | some d =>
    match d.segments with
    | none => Except.error "Download not found or no segments available"
    | some _ => Except.ok ()

/-- Claim C7 fails on the code: a stored job whose `segments` field is the
empty list passes the guard (JavaScript `![]` is `false`), so `start` succeeds
where the claim requires an error. -/
theorem startDownloadCheck_claim_counterexample :
    startDownloadCheck (some ⟨some []⟩) = Except.ok () := rfl

/-- Claim C7 (amended): `start(id)` errors exactly when the job record is
absent or its `segments` field is null/missing; a stored job whose `segments`
field is present — *including the empty list* — is accepted, and an accepted
empty list leaves nothing missing, so the run goes straight to the completion
check. -/
theorem startDownloadCheck_spec (download : Option StoredJob) :
    ((∃ e, startDownloadCheck download = Except.error e) ↔
      (download = none ∨ ∃ j, download = some j ∧ j.segments = none)) ∧
    (∀ segs : List String, startDownloadCheck (some ⟨some segs⟩) = Except.ok ()) ∧
    (∀ disk : DiskState, ∀ o f : String,
      (checkExistingSegments disk o f []).missingSegments = []) := by
  refine ⟨?_, fun _ => rfl, fun _ _ _ => rfl⟩
  cases download with
  | none =>
    simp [startDownloadCheck]
  | some d =>
    cases hd : d.segments with
    | none =>
      constructor
      · intro _
        exact Or.inr ⟨d, rfl, hd⟩
      · intro _
        exact ⟨"Download not found or no segments available", by simp [startDownloadCheck, hd]⟩
    | some segs =>
      constructor
      · rintro ⟨e, he⟩
        simp [startDownloadCheck, hd] at he
      · rintro (h | ⟨j, hj, hjs⟩)
        · cases h
        · cases hj
          rw [hd] at hjs
          cases hjs

/-! ### Double start — `DownloadEngine.startDownload` has no concurrency guard

Source (part_002, lines 38–103 and line 17): `startDownload` writes
`this.activeDownloads.set(downloadId, true)` but never *reads* the map; a
second call while the job is downloading re-runs the whole start path —
re-reads the disk, resets the per-job tracking, and passes the (still) missing
segments to `processDownload`, which creates one new fetch promise per missing
index while the first call's promises are still in flight (they keep running:
the liveness flag they poll is still `true`). -/

/-- The per-job engine state affected by `startDownload`.  `workers` is the
multiset of segment indices with an in-flight fetch promise, in scheduling
order. -/
structure EngineJobState where
  status : String
  active : Bool
  failedSegments : List ℕ
  trackedPaths : List String
  workers : List ℕ
deriving DecidableEq

/-- The effect of one `startDownload` call on the per-job state, for a fixed
disk state: status set to `downloading`, tracking reset from the disk check,
and one new fetch worker appended per missing index. -/
def startDownloadStep (disk : DiskState) (o f : String) (segs : List String)
    (st : EngineJobState) : EngineJobState :=
  let chk := checkExistingSegments disk o f segs
  { status := "downloading"
    active := true
    failedSegments := []
    trackedPaths := chk.existingSegmentPaths
    workers := st.workers ++ chk.missingSegments.map (fun p => p.1) }

/-- Claim C8 fails on the code: with one segment, an empty disk and a fresh
state, a second `start` issued while the job is downloading leaves *two*
in-flight fetch workers for index 0 where the first start alone left one. -/
theorem startDownload_idempotent_counterexample :
    startDownloadStep ⟨fun _ => none⟩ "out" "m" ["u"]
        (startDownloadStep ⟨fun _ => none⟩ "out" "m" ["u"] ⟨"queued", false, [], [], []⟩) ≠
      startDownloadStep ⟨fun _ => none⟩ "out" "m" ["u"] ⟨"queued", false, [], [], []⟩ := by
  intro h
  have hw := congrArg EngineJobState.workers h
  simp [startDownloadStep, checkExistingSegments, checkExistingStep, segmentOnDisk] at hw

/-- Claim C8 (amended): `startDownload` contains no double-start guard — it
never reads `activeDownloads` — so a second start while the job is downloading
re-runs the start path: every field of the per-job state is reset exactly as by
the first start, *except* that one more fetch worker is appended for every
still-missing index, duplicating the in-flight workers. -/
theorem startDownload_second_start (disk : DiskState) (o f : String)
    (segs : List String) (st : EngineJobState) :
    startDownloadStep disk o f segs (startDownloadStep disk o f segs st) =
      { startDownloadStep disk o f segs st with
        workers := (startDownloadStep disk o f segs st).workers ++
          (checkExistingSegments disk o f segs).missingSegments.map (fun p => p.1) } := by
  simp [startDownloadStep]

/-! ### Playlist liveness — `M3U8Parser.parsePlaylist`

Source (m3u8-parser.ts, lines 333–390): over the nonempty trimmed lines,

```ts
if (line.includes('#EXT-X-PLAYLIST-TYPE:VOD')) {
  isLive = false;
} else if (line.includes('#EXT-X-PLAYLIST-TYPE:LIVE') || line.includes('#EXT-X-TARGETDURATION')) {
  isLive = true;
}
```

with `isLive` initially `false` — a left fold, so the *last* directive line
wins. -/

/-- Substring scan underlying JavaScript `String.prototype.includes`. -/
def includesAux (pat : List Char) : List Char → Bool
  | [] => pat.isPrefixOf ([] : List Char)
  | c :: rest => pat.isPrefixOf (c :: rest) || includesAux pat rest

/-- JavaScript `line.includes(pat)`. -/
def strIncludes (line pat : String) : Bool := includesAux pat.data line.data

/-- One loop iteration of the liveness classification. -/
def isLiveStep (isLive : Bool) (line : String) : Bool :=
  if strIncludes line "#EXT-X-PLAYLIST-TYPE:VOD" then false
  else if strIncludes line "#EXT-X-PLAYLIST-TYPE:LIVE" ||
      strIncludes line "#EXT-X-TARGETDURATION" then true
  else isLive

/-- The final `isLive` flag computed by `parsePlaylist`. -/
def parsePlaylistIsLive (lines : List String) : Bool := lines.foldl isLiveStep false

/-- The liveness rule exactly as the claim states it: order-independent — VOD
anywhere forces the flag false, otherwise LIVE or TARGETDURATION anywhere makes
it true. -/
def claimIsLive (lines : List String) : Bool :=
  if lines.any (fun l => strIncludes l "#EXT-X-PLAYLIST-TYPE:VOD") then false
  else lines.any (fun l => strIncludes l "#EXT-X-PLAYLIST-TYPE:LIVE") ||
    lines.any (fun l => strIncludes l "#EXT-X-TARGETDURATION")

/-- Claim C9 fails on the code: in a playlist whose `#EXT-X-PLAYLIST-TYPE:VOD`
line precedes its `#EXT-X-TARGETDURATION` line, the code's last-writer-wins
fold marks the playlist live, while the claim's order-independent rule marks it
VOD. -/
theorem parsePlaylistIsLive_claim_counterexample :
    parsePlaylistIsLive ["#EXT-X-PLAYLIST-TYPE:VOD", "#EXT-X-TARGETDURATION:10"] = true ∧
      claimIsLive ["#EXT-X-PLAYLIST-TYPE:VOD", "#EXT-X-TARGETDURATION:10"] = false := by
  constructor <;> rfl

/-- The decision a single line contributes: `some false` for a VOD line,
`some true` for a LIVE or TARGETDURATION line that is not also a VOD line,
`none` for a non-directive line. -/
def directiveDecision (line : String) : Option Bool :=
  if strIncludes line "#EXT-X-PLAYLIST-TYPE:VOD" then some false
  else if strIncludes line "#EXT-X-PLAYLIST-TYPE:LIVE" ||
      strIncludes line "#EXT-X-TARGETDURATION" then some true
  else none

theorem isLiveStep_eq_directiveDecision (b : Bool) (l : String) :
    isLiveStep b l = (directiveDecision l).getD b := by
  unfold isLiveStep directiveDecision
  split_ifs <;> rfl

theorem foldl_isLiveStep_eq (lines : List String) :
    ∀ b : Bool, lines.foldl isLiveStep b =
      ((lines.reverse.findSome? directiveDecision).getD b) := by
  induction lines with
  | nil => intro b; rfl
  | cons l ls ih =>
    intro b
    rw [List.foldl_cons, ih (isLiveStep b l), List.reverse_cons, List.findSome?_append]
    cases h : ls.reverse.findSome? directiveDecision with
    | some v => simp [h]
    | none =>
      simp only [h, Option.none_or]
      rw [isLiveStep_eq_directiveDecision]
      cases hd : directiveDecision l with
      | some v => simp [List.findSome?, hd]
      | none => simp [List.findSome?, hd]

/-- Claim C9 (amended): the liveness flag is decided by the *last* directive
line, not order-independently: scanning from the end of the playlist, the first
line that contains one of the three directives decides the flag — `false` if
that line contains `#EXT-X-PLAYLIST-TYPE:VOD`, else `true` if it contains
`#EXT-X-PLAYLIST-TYPE:LIVE` or `#EXT-X-TARGETDURATION`; `false` when no
directive line appears.  In particular a VOD line is overridden by any later
TARGETDURATION or LIVE line. -/
theorem parsePlaylistIsLive_last_directive (lines : List String) :
    parsePlaylistIsLive lines =
      ((lines.reverse.findSome? directiveDecision).getD false) :=
  foldl_isLiveStep_eq lines false

/-! ### Muxer-driver segment ordering — `VideoMerger.mergeSegmentsToMKV` /
`VideoMerger.mergeSegmentsBinary`

Source (part_000, lines 77–83 and 179–185), identical in both paths:

```ts
const sortedSegments = segmentPaths.sort((a, b) => {
  const aMatch = a.match(/_segment_(\d+)\./);
  const bMatch = b.match(/_segment_(\d+)\./);
  const aIndex = aMatch ? parseInt(aMatch[1]) : 0;
  const bIndex = bMatch ? parseInt(bMatch[1]) : 0;
  return aIndex - bIndex;
});
```

`Array.prototype.sort` is stable (ES2019), so this is a stable sort by the
extracted key; it is embedded below as `List.mergeSort`, which is stable.  The
regex `_segment_(\d+)\.` matches at the leftmost position where the literal
marker `_segment_` is followed by a nonempty digit run and then a dot; the
greedy `\d+` cannot backtrack successfully because any shorter digit run is
followed by a digit, not a dot. -/

def segMarker : List Char := "_segment_".data

/-- `parseInt` on a nonempty run of decimal digits. -/
def digitsVal (ds : List Char) : ℕ := ds.foldl (fun n c => 10 * n + (c.toNat - 48)) 0

/-- One attempted match of `_segment_(\d+)\.` anchored at the head of `cs`:
the marker, then a maximal nonempty digit run, then `'.'`. -/
def segMatchAt (cs : List Char) : Option ℕ :=
  if segMarker.isPrefixOf cs then
    let rest := cs.drop segMarker.length
    let ds := rest.takeWhile Char.isDigit
    if ds.isEmpty then none
    else
      match (rest.drop ds.length).head? with
      | some c => if c = '.' then some (digitsVal ds) else none
      | none => none
  else none

/-- Leftmost match of `_segment_(\d+)\.`, as the JavaScript regex engine finds it. -/
def segScan : List Char → Option ℕ
  | [] => none
  | c :: rest =>
    match segMatchAt (c :: rest) with
    | some n => some n
    | none => segScan rest

/-- The comparator key: the matched index, or 0 when the filename has no match. -/
def segIndex (s : String) : ℕ := (segScan s.data).getD 0

/-- The muxer driver's segment ordering: a stable sort of the input paths by
`segIndex`. -/
def sortSegments (paths : List String) : List String :=
  paths.mergeSort (fun a b => segIndex a ≤ segIndex b)

theorem segLe_trans : ∀ a b c : String,
    (decide (segIndex a ≤ segIndex b)) = true →
      (decide (segIndex b ≤ segIndex c)) = true →
      (decide (segIndex a ≤ segIndex c)) = true := by
  intro a b c hab hbc
  simp only [decide_eq_true_eq] at hab hbc ⊢
  omega

theorem segLe_total : ∀ a b : String,
    ((decide (segIndex a ≤ segIndex b)) || (decide (segIndex b ≤ segIndex a))) = true := by
  intro a b
  simp only [Bool.or_eq_true, decide_eq_true_eq]
  omega

/-- Two sorted permutations of one another with pairwise-distinct keys are
equal (key-specific antisymmetry replaces the global `IsAntisymm` of
`List.eq_of_perm_of_sorted`). -/
theorem eq_of_perm_sorted_keysNodup :
    ∀ l₁ l₂ : List String, l₁.Perm l₂ →
      l₁.Pairwise (fun a b => segIndex a ≤ segIndex b) →
      l₂.Pairwise (fun a b => segIndex a ≤ segIndex b) →
      (l₁.map segIndex).Nodup → l₁ = l₂ := by
  intro l₁
  induction l₁ with
  | nil =>
    intro l₂ hp _ _ _
    exact hp.nil_eq
  | cons a t ih =>
    intro l₂ hp hs₁ hs₂ hnd
    cases l₂ with
    | nil =>
      have h0 := hp.eq_nil
      cases h0
    | cons b t₂ =>
      have hnd' : (∀ x ∈ t, ¬segIndex x = segIndex a) ∧ (List.map segIndex t).Nodup := by
        simpa using hnd
      rcases List.mem_cons.mp (hp.symm.subset (List.mem_cons_self b t₂)) with hba | hbt
      · cases hba
        have hpt := hp.cons_inv
        have h := ih t₂ hpt (List.pairwise_cons.mp hs₁).2 (List.pairwise_cons.mp hs₂).2 hnd'.2
        rw [h]
      · rcases List.mem_cons.mp (hp.subset (List.mem_cons_self a t)) with hab | hat2
        · exfalso
          cases hab
          exact hnd'.1 _ hbt rfl
        · exfalso
          have h1 : segIndex a ≤ segIndex b := (List.pairwise_cons.mp hs₁).1 b hbt
          have h2 : segIndex b ≤ segIndex a := (List.pairwise_cons.mp hs₂).1 a hat2
          exact hnd'.1 b hbt (le_antisymm h2 h1)

theorem sortSegments_filter_key (l : List String) (k : ℕ) :
    (sortSegments l).filter (fun s => segIndex s == k) =
      l.filter (fun s => segIndex s == k) := by
  have hkeys : ∀ x ∈ l.filter (fun s => segIndex s == k), segIndex x = k := by
    intro x hx
    simpa using (List.mem_filter.mp hx).2
  have hc : (l.filter (fun s => segIndex s == k)).Pairwise
      (fun a b => (decide (segIndex a ≤ segIndex b)) = true) := by
    apply List.pairwise_of_forall_mem_list
    intro a ha b hb
    simp only [decide_eq_true_eq]
    rw [hkeys a ha, hkeys b hb]
  have hsub : (l.filter (fun s => segIndex s == k)).Sublist (sortSegments l) :=
    List.mergeSort_stable segLe_trans segLe_total hc (List.filter_sublist l)
  have hself : (l.filter (fun s => segIndex s == k)).filter (fun s => segIndex s == k) =
      l.filter (fun s => segIndex s == k) :=
    List.filter_eq_self.mpr (fun a ha => (List.mem_filter.mp ha).2)
  have hsub2 := hsub.filter (fun s => segIndex s == k)
  rw [hself] at hsub2
  have hlen : ((sortSegments l).filter (fun s => segIndex s == k)).length =
      (l.filter (fun s => segIndex s == k)).length :=
    ((List.mergeSort_perm l _).filter _).length_eq
  exact (hsub2.eq_of_length hlen.symm).symm

/-- Claim C5: the muxer driver (both the external path and the binary-concat
fallback) presents the segments stably sorted by the numeric index embedded in
`_segment_<n>.`: the output is a permutation of the input, nondecreasing in the
key; a filename with no match has key 0; ties keep input order (the key-`k`
filter of the output equals that of the input, for every `k`); and for inputs
with pairwise-distinct keys the output is independent of the order fetches
completed in. -/
theorem mergeDriver_order_spec (l : List String) :
    (sortSegments l).Perm l ∧
      (sortSegments l).Pairwise (fun a b => segIndex a ≤ segIndex b) ∧
      (∀ k : ℕ, (sortSegments l).filter (fun s => segIndex s == k) =
        l.filter (fun s => segIndex s == k)) ∧
      (∀ l₂ : List String, l.Perm l₂ → (l.map segIndex).Nodup →
        sortSegments l = sortSegments l₂) ∧
      (∀ s : String, segScan s.data = none → segIndex s = 0) := by
  refine ⟨List.mergeSort_perm l _, ?_, sortSegments_filter_key l, ?_, ?_⟩
  · have h := List.sorted_mergeSort segLe_trans segLe_total l
    exact h.imp (fun hab => by simpa using hab)
  · intro l₂ hp hnd
    have h₁ := List.mergeSort_perm l (fun a b => segIndex a ≤ segIndex b)
    have h₂ := List.mergeSort_perm l₂ (fun a b => segIndex a ≤ segIndex b)
    have hperm : (sortSegments l).Perm (sortSegments l₂) :=
      (h₁.trans hp).trans h₂.symm
    have hs₁ := (List.sorted_mergeSort segLe_trans segLe_total l).imp
      (fun hab => by simpa using hab)
    have hs₂ := (List.sorted_mergeSort segLe_trans segLe_total l₂).imp
      (fun hab => by simpa using hab)
    have hnd₁ : ((sortSegments l).map segIndex).Nodup :=
      ((h₁.map segIndex).nodup_iff).mpr hnd
    exact eq_of_perm_sorted_keysNodup _ _ hperm hs₁ hs₂ hnd₁
  · intro s h
    simp [segIndex, h]

/-- Witness for `mergeDriver_order_spec`: two fetch-completion orders of the
same two segment files sort identically, and a path with no `_segment_<n>.`
match gets key 0. -/
theorem mergeDriver_order_spec_witness :
    sortSegments ["v_segment_2.ts", "v_segment_1.ts"] =
        sortSegments ["v_segment_1.ts", "v_segment_2.ts"] ∧
      segIndex "noidx.ts" = 0 := by
  have h := mergeDriver_order_spec ["v_segment_2.ts", "v_segment_1.ts"]
  exact ⟨h.2.2.2.1 ["v_segment_1.ts", "v_segment_2.ts"]
      (List.Perm.swap "v_segment_1.ts" "v_segment_2.ts" []) (by decide),
    h.2.2.2.2 "noidx.ts" (by decide)⟩

/-! ### Muxer driver and engine merge — `VideoMerger.mergeSegmentsToMKV`,
`VideoMerger.mergeSegmentsBinary`, `DownloadEngine.mergeSegments`

`mergeSegmentsToMKV` (part_000, lines 62–143): the `ffmpegPath`
initialization sits *outside* the try block (lines 65–67) and can reject the
returned promise; everything else is inside a try whose catch returns
`{ success: false, error: "Failed to merge segments: …" }`, and the inner
`new Promise((resolve) => …)` only ever calls `resolve` — the ffmpeg `error`
handler resolves `{ success: false, error }`, the `end` handler deletes the
concat manifest, probes the duration (`getVideoDuration` never rejects), runs
`cleanupSegmentFiles` (Promise.allSettled, never rejects) over the segment
files and resolves success; if the manifest unlink throws, it resolves success
with a cleanup note and *without* touching the segment files.
`mergeSegmentsBinary` (lines 169–207) is one try/catch returning a
`MergeResult` in both arms.  `DownloadEngine.mergeSegments` (part_002, lines
373–468) falls back to the binary path only when the ffmpeg call *rejects*;
a `success: false` result is thrown into the outer catch, which marks the job
`completed` with an error message and progress 100.

In the embeddings below, `Except.error` means the promise rejected, and the
second component of a successful result is the list of segment files whose
deletion the driver attempted. -/

structure MergeResult where
  success : Bool
  outputFile : Option String
  error : Option String
  duration : Option ℕ
deriving DecidableEq

/-- JavaScript `try { body } catch (e) { handler(e) }` around a value-producing
body. -/
def jsTryCatch {A : Type} (body : Except String A) (handler : String → A) : A :=
  match body with
  | Except.ok a => a
  | Except.error e => handler e

/-- Effect outcomes `mergeSegmentsToMKV` observes: whether `ffmpegPath` is
already set, whether `initialize()` resolves, the fallible filesystem calls,
and the ffmpeg run (`none` = the `end` event, `some e` = the `error` event). -/
structure MuxEnv where
  ffmpegPathSet : Bool
  initOk : Bool
  mkdirError : Option String
  writeConcatError : Option String
  runError : Option String
  unlinkConcatError : Option String
  probedDuration : ℕ

/-- `filename.endsWith('.mkv') ? filename.slice(0, -4) : filename`. -/
def cleanFilename (filename : String) : String :=
  if filename.endsWith ".mkv" then filename.dropRight 4 else filename

def outputFilePathOf (outputPath filename : String) : String :=
  outputPath ++ "/" ++ cleanFilename filename ++ ".mkv"

/-- `VideoMerger.mergeSegmentsToMKV`. -/
def mergeSegmentsToMKV (env : MuxEnv) (outputPath filename : String)
    (segmentPaths : List String) : Except String (MergeResult × List String) :=
  if env.ffmpegPathSet = false ∧ env.initOk = false then
    Except.error "FFmpeg not found. Please install FFmpeg or add @ffmpeg-installer/ffmpeg."
  else
    Except.ok (jsTryCatch
      (match env.mkdirError with
       | some e => Except.error e
       | none =>
         match env.writeConcatError with
         | some e => Except.error e
         | none =>
           Except.ok (
             match env.runError with
             | some e => (⟨false, none, some e, none⟩, [])
             | none =>
               match env.unlinkConcatError with
               | some ce =>
                 (⟨true, some (outputFilePathOf outputPath filename),
                   some ("Merge successful but cleanup failed: " ++ ce), none⟩, [])
               | none =>
                 (⟨true, some (outputFilePathOf outputPath filename), none,
                   some env.probedDuration⟩, sortSegments segmentPaths)))
      (fun e => (⟨false, none, some ("Failed to merge segments: " ++ e), none⟩, [])))

/-- Effect outcomes `mergeSegmentsBinary` observes. -/
structure BinEnv where
  mkdirError : Option String
  readError : Option String
  writeFinishError : Option String

/-- `VideoMerger.mergeSegmentsBinary`. -/
def mergeSegmentsBinary (env : BinEnv) (outputPath filename : String)
    (segmentPaths : List String) : Except String (MergeResult × List String) :=
  Except.ok (jsTryCatch
    (match env.mkdirError with
     | some e => Except.error e
     | none =>
       match env.readError with
       | some e => Except.error e
       | none =>
         match env.writeFinishError with
         | some e => Except.error e
         | none =>
           Except.ok (⟨true, some (outputFilePathOf outputPath filename), none, none⟩,
             sortSegments segmentPaths))
    (fun e => (⟨false, none, some ("Binary merge failed: " ++ e), none⟩, [])))

/-- The job-record fields `DownloadEngine.mergeSegments` ends up writing.
`errorMessage = none` means the call did not write an error message;
`fallbackUsed` records whether the catch-based binary fallback ran. -/
structure EngineMergeOutcome where
  status : String
  errorMessage : Option String
  finalProgress : Option ℚ
  outputFile : Option String
  deletedSegments : List String
  fallbackUsed : Bool

/-- `DownloadEngine.mergeSegments` for a job with a nonempty segment-file list. -/
def engineMergeSegments (menv : MuxEnv) (benv : BinEnv) (outputPath filename : String)
    (segmentFiles : List String) : EngineMergeOutcome :=
  match mergeSegmentsToMKV menv outputPath filename segmentFiles with
  | Except.ok (r, del) =>
    if r.success then
      ⟨"completed", none, none, r.outputFile, del, false⟩
    else
      ⟨"completed",
        some ("Merge failed but segments available: " ++ r.error.getD "Unknown merge error"),
        some 100, none, del, false⟩
  | Except.error _ =>
    match mergeSegmentsBinary benv outputPath filename segmentFiles with
    | Except.ok (r, del) =>
      if r.success then
        ⟨"completed", none, none, r.outputFile, del, true⟩
      else
        ⟨"completed",
          some ("Merge failed but segments available: " ++ r.error.getD "Unknown merge error"),
          some 100, none, del, true⟩
    | Except.error e =>
      ⟨"completed", some ("Merge failed but segments available: " ++ e), some 100, none, [], true⟩

theorem mergeSegmentsToMKV_success_of_deleted (menv : MuxEnv) (o f : String)
    (segs : List String) (r : MergeResult) (del : List String) :
    mergeSegmentsToMKV menv o f segs = Except.ok (r, del) → del ≠ [] →
      r.success = true := by
  intro h hdel
  unfold mergeSegmentsToMKV at h
  by_cases hi : menv.ffmpegPathSet = false ∧ menv.initOk = false
  · rw [if_pos hi] at h
    cases h
  · rw [if_neg hi] at h
    rcases hmk : menv.mkdirError with _ | e <;> rw [hmk] at h
    · rcases hw : menv.writeConcatError with _ | e <;> rw [hw] at h
      · rcases hr : menv.runError with _ | e <;> rw [hr] at h
        · rcases hu : menv.unlinkConcatError with _ | ce <;> rw [hu] at h
          · cases h
            rfl
          · cases h
            rfl
        · cases h
          exact absurd rfl hdel
      · cases h
        exact absurd rfl hdel
    · cases h
      exact absurd rfl hdel

theorem mergeSegmentsBinary_success_of_deleted (benv : BinEnv) (o f : String)
    (segs : List String) (r : MergeResult) (del : List String) :
    mergeSegmentsBinary benv o f segs = Except.ok (r, del) → del ≠ [] →
      r.success = true := by
  intro h hdel
  unfold mergeSegmentsBinary at h
  rcases hmk : benv.mkdirError with _ | e <;> rw [hmk] at h
  · rcases hrd : benv.readError with _ | e <;> rw [hrd] at h
    · rcases hw : benv.writeFinishError with _ | e <;> rw [hw] at h
      · cases h
        rfl
      · cases h
        exact absurd rfl hdel
    · cases h
      exact absurd rfl hdel
  · cases h
    exact absurd rfl hdel

theorem mergeSegmentsToMKV_runError (menv : MuxEnv) (o f : String) (segs : List String)
    (e : String) (hp : menv.ffmpegPathSet = true ∨ menv.initOk = true)
    (hmk : menv.mkdirError = none) (hw : menv.writeConcatError = none)
    (hr : menv.runError = some e) :
    mergeSegmentsToMKV menv o f segs = Except.ok (⟨false, none, some e, none⟩, []) := by
  unfold mergeSegmentsToMKV
  rw [if_neg (by rcases hp with h | h <;> simp [h])]
  rw [hmk, hw, hr]
  rfl

/-- Claim C4: when the muxer run fails after the download completed, the job's
status remains `completed` (indeed `mergeSegments` writes `completed` on every
path, never `error`), its `error_message` describes the merge failure, and no
segment file is deleted on that path; more generally segment files are deleted
only by a merge that reported success. -/
theorem mergeSegments_muxFailure_spec (menv : MuxEnv) (benv : BinEnv) (o f : String)
    (segs : List String) :
    (∀ e, (menv.ffmpegPathSet = true ∨ menv.initOk = true) →
      menv.mkdirError = none → menv.writeConcatError = none → menv.runError = some e →
        (engineMergeSegments menv benv o f segs).status = "completed" ∧
        (engineMergeSegments menv benv o f segs).errorMessage =
          some ("Merge failed but segments available: " ++ e) ∧
        (engineMergeSegments menv benv o f segs).deletedSegments = []) ∧
    (engineMergeSegments menv benv o f segs).status = "completed" ∧
    ((engineMergeSegments menv benv o f segs).deletedSegments ≠ [] →
      (engineMergeSegments menv benv o f segs).errorMessage = none) := by
  refine ⟨?_, ?_, ?_⟩
  · intro e hp hmk hw hr
    have hkey := mergeSegmentsToMKV_runError menv o f segs e hp hmk hw hr
    simp [engineMergeSegments, hkey]
  · unfold engineMergeSegments
    rcases h : mergeSegmentsToMKV menv o f segs with e | ⟨r, del⟩
    · rcases hb : mergeSegmentsBinary benv o f segs with e2 | ⟨r2, del2⟩
      · rfl
      · by_cases hs : r2.success <;> simp [hs]
    · by_cases hs : r.success <;> simp [hs]
  · unfold engineMergeSegments
    rcases h : mergeSegmentsToMKV menv o f segs with e | ⟨r, del⟩
    · rcases hb : mergeSegmentsBinary benv o f segs with e2 | ⟨r2, del2⟩
      · intro hd
        exact absurd rfl hd
      · by_cases hs : r2.success
        · simp [hs]
        · simp [hs]
          by_contra hd
          exact hs (mergeSegmentsBinary_success_of_deleted benv o f segs r2 del2 hb hd)
    · by_cases hs : r.success
      · simp [hs]
      · simp [hs]
        by_contra hd
        exact hs (mergeSegmentsToMKV_success_of_deleted menv o f segs r del h hd)

/-- Concrete environment for the C4 witness: ffmpeg located, filesystem fine,
muxer run fails. -/
def witnessMuxEnv : MuxEnv := ⟨true, true, none, none, some "ffmpeg exited with code 1", none, 0⟩

/-- Witness for `mergeSegments_muxFailure_spec` at a failing muxer run. -/
theorem mergeSegments_muxFailure_spec_witness :
    (engineMergeSegments witnessMuxEnv ⟨none, none, none⟩ "out" "m" ["p_segment_0.ts"]).status =
        "completed" ∧
      (engineMergeSegments witnessMuxEnv ⟨none, none, none⟩ "out" "m" ["p_segment_0.ts"]).errorMessage =
        some ("Merge failed but segments available: " ++ "ffmpeg exited with code 1") ∧
      (engineMergeSegments witnessMuxEnv ⟨none, none, none⟩ "out" "m" ["p_segment_0.ts"]).deletedSegments =
        [] :=
  (mergeSegments_muxFailure_spec witnessMuxEnv ⟨none, none, none⟩ "out" "m"
    ["p_segment_0.ts"]).1 "ffmpeg exited with code 1" (Or.inl rfl) rfl rfl rfl

/-- Claim C10: whenever `ffmpegPath` is already set or `initialize()` succeeds,
`mergeSegmentsToMKV` resolves to a `MergeResult` (it rejects only when both
fail); in particular a muxer-run failure resolves `success = false` carrying
the run's error message; `mergeSegmentsBinary` always resolves; and on a
muxer-run failure the engine's catch-based binary fallback is not reached. -/
theorem videoMerger_always_resolves (menv : MuxEnv) (benv : BinEnv) (o f : String)
    (segs : List String) :
    ((menv.ffmpegPathSet = true ∨ menv.initOk = true) →
      ∃ r, mergeSegmentsToMKV menv o f segs = Except.ok r) ∧
    (∀ e, (menv.ffmpegPathSet = true ∨ menv.initOk = true) →
      menv.mkdirError = none → menv.writeConcatError = none → menv.runError = some e →
        mergeSegmentsToMKV menv o f segs = Except.ok (⟨false, none, some e, none⟩, [])) ∧
    (∃ r, mergeSegmentsBinary benv o f segs = Except.ok r) ∧
    (∀ e, (menv.ffmpegPathSet = true ∨ menv.initOk = true) →
      menv.mkdirError = none → menv.writeConcatError = none → menv.runError = some e →
        (engineMergeSegments menv benv o f segs).fallbackUsed = false) := by
  refine ⟨?_, ?_, ⟨_, rfl⟩, ?_⟩
  · intro hp
    unfold mergeSegmentsToMKV
    rw [if_neg (by rcases hp with h | h <;> simp [h])]
    exact ⟨_, rfl⟩
  · intro e hp hmk hw hr
    exact mergeSegmentsToMKV_runError menv o f segs e hp hmk hw hr
  · intro e hp hmk hw hr
    have hkey := mergeSegmentsToMKV_runError menv o f segs e hp hmk hw hr
    simp [engineMergeSegments, hkey]

/-- Witness for `videoMerger_always_resolves` at a failing muxer run. -/
theorem videoMerger_always_resolves_witness :
    mergeSegmentsToMKV witnessMuxEnv "out" "m" ["p_segment_0.ts"] =
        Except.ok (⟨false, none, some "ffmpeg exited with code 1", none⟩, []) ∧
      (engineMergeSegments witnessMuxEnv ⟨none, none, none⟩ "out" "m"
        ["p_segment_0.ts"]).fallbackUsed = false := by
  have h := videoMerger_always_resolves witnessMuxEnv ⟨none, none, none⟩ "out" "m"
    ["p_segment_0.ts"]
  exact ⟨h.2.1 "ffmpeg exited with code 1" (Or.inl rfl) rfl rfl rfl,
    h.2.2.2 "ffmpeg exited with code 1" (Or.inl rfl) rfl rfl rfl⟩
